import Mathlib

/-
  Verification of the PR code-review pipeline.

  Shallow embedding of the core of the autonomous-code-review-agent
  repository:
    - app/services/github_service.py : parse_diff_for_changed_lines
    - app/agents/tools.py            : CodeAnalysisTool (line analyzer),
                                       GitHubPRTool content-fetch loop
    - app/agents/code_review_agent.py: CodeReviewAgent.analyze_pr,
                                       _should_skip_file
    - app/tasks.py                   : analyze_pr_task job transitions
    - app/main.py + app/models.py    : submission endpoint and request model

  Python strings are embedded as List Char; Python dicts that the code
  builds by insertion (changed_lines, files_content) as association lists
  in insertion order; Python exceptions as Except String.
-/

/-- Python str.split(sep) for a one-character separator: splits on every
occurrence and keeps empty pieces; the empty string splits to one empty
piece, matching Python. -/
def pySplitOn (sep : Char) : List Char → List (List Char)
  | [] => [[]]
  | c :: rest =>
    if c == sep then [] :: pySplitOn sep rest
    else
      match pySplitOn sep rest with
      | l :: ls => (c :: l) :: ls
      | [] => [[c]]

/-- content.split(chr(10)) from CodeAnalysisTool._run and
parse_diff_for_changed_lines. -/
def pySplitLines (s : List Char) : List (List Char) := pySplitOn '\n' s

/-- str.startswith(pat): the first list starts with the second. -/
def startsWithL : List Char → List Char → Bool
  | _, [] => true
  | [], _ :: _ => false
  | a :: as, b :: bs => a == b && startsWithL as bs

/-- Python substring test (needle in hay); the empty needle is contained
in every string, as in Python. -/
def containsSub : List Char → List Char → Bool
  | [], needle => needle.isEmpty
  | c :: rest, needle => startsWithL (c :: rest) needle || containsSub rest needle

/-- str.endswith(pat). -/
def endsWithL (hay pat : List Char) : Bool :=
  startsWithL hay.reverse pat.reverse

/-- str.lower, on the ASCII alphabet used by every string the code
compares (file extensions, rule keywords). -/
def toLowerL (s : List Char) : List Char := s.map Char.toLower

/-- str.upper, ASCII as above (used for the TODO marker check). -/
def toUpperL (s : List Char) : List Char := s.map Char.toUpper

/-- The character class backslash-s of Python's re module. -/
def isPySpace (c : Char) : Bool :=
  c == ' ' || c == '\t' || c == '\n' || c == '\r' || c == '\x0b' || c == '\x0c'

/-- The character class backslash-w of Python's re module, on ASCII. -/
def isWordChar (c : Char) : Bool := c.isAlphanum || c == '_'

/-- Python list indexing semantics: a nonnegative index reads from the
front, a negative index of magnitude at most the length reads from the
back, anything else raises IndexError (here: none). -/
def pyIndex {α : Type} (xs : List α) (i : Int) : Option α :=
  if 0 ≤ i ∧ i < (xs.length : Int) then xs.get? i.toNat
  else if -(xs.length : Int) ≤ i ∧ i < 0 then xs.get? (xs.length + i).toNat
  else none

/-- re.search of the pattern comma-then-[^ backslash-s closebracket] used by
_check_style_issues: some comma is immediately followed by a character that
is neither whitespace nor a closing square bracket. -/
def commaSearch : List Char → Bool
  | ',' :: c :: rest => (!isPySpace c && c != ']') || commaSearch (c :: rest)
  | _ :: rest => commaSearch rest
  | [] => false

/-- re.match of backslash-s* except backslash-s* colon used by
_check_potential_bugs: optional leading whitespace, the word except,
optional whitespace, then a colon, anchored at the start of the line. -/
def matchBareExcept (line : List Char) : Bool :=
  let r1 := line.dropWhile isPySpace
  startsWithL r1 ('e' :: 'x' :: 'c' :: 'e' :: 'p' :: 't' :: []) &&
    (match (r1.drop 6).dropWhile isPySpace with
     | ':' :: _ => true
     | _ => false)

/-- Whether the word print, followed by optional whitespace and an opening
parenthesis, starts at this position (the tail of the print-call regex of
_check_best_practices). -/
def printCallHere (cs : List Char) : Bool :=
  startsWithL cs ('p' :: 'r' :: 'i' :: 'n' :: 't' :: []) &&
    (match (cs.drop 5).dropWhile isPySpace with
     | '(' :: _ => true
     | _ => false)

/-- Scan for a match of the print-call regex, tracking the previous
character to decide the word boundary before the letter p. -/
def printSearchAux : Option Char → List Char → Bool
  | prev, c :: rest =>
    ((match prev with | none => true | some p => !isWordChar p) &&
      printCallHere (c :: rest))
    || printSearchAux (some c) rest
  | _, [] => false

/-- re.search of backslash-b print backslash-s* openparen used by
_check_best_practices. -/
def printSearch (line : List Char) : Bool := printSearchAux none line

/-- One issue dictionary produced by the CodeAnalysisTool checks
(app/agents/tools.py). The line field is Int because the line number the
caller supplies is a Python int. -/
structure Issue where
  type : String
  line : Int
  description : String
  suggestion : String
  severity : String
deriving DecidableEq

/-- CodeAnalysisTool._check_style_issues: long line, trailing whitespace,
and (for the py extension) missing space after comma. -/
def check_style_issues (line : List Char) (lineNum : Int) (ext : List Char) :
    List Issue :=
  (if line.length > 120 then
    [{ type := "style", line := lineNum
       description := "Line too long (" ++ toString line.length ++ " characters)"
       suggestion := "Break line into multiple lines or refactor"
       severity := "low" }]
   else [])
  ++
  (if endsWithL line [' '] || endsWithL line ['\t'] then
    [{ type := "style", line := lineNum
       description := "Trailing whitespace"
       suggestion := "Remove trailing whitespace"
       severity := "low" }]
   else [])
  ++
  (if ext == ('p' :: 'y' :: []) then
    (if commaSearch line then
      [{ type := "style", line := lineNum
         description := "Missing space after comma"
         suggestion := "Add space after comma"
         severity := "low" }]
     else [])
   else [])

/-- CodeAnalysisTool._check_potential_bugs: None-equality comparison and
bare except clause, both only for the py extension. -/
def check_potential_bugs (line : List Char) (lineNum : Int) (ext : List Char) :
    List Issue :=
  if ext == ('p' :: 'y' :: []) then
    (if !containsSub line ("is None".data) &&
        (containsSub line ("== None".data) || containsSub line ("!= None".data)) then
      [{ type := "bug", line := lineNum
         description := "Use 'is None' instead of '== None'"
         suggestion := "Replace '== None' with 'is None'"
         severity := "medium" }]
     else [])
    ++
    (if matchBareExcept line then
      [{ type := "bug", line := lineNum
         description := "Bare except clause"
         suggestion := "Specify exception type or use 'except Exception:'"
         severity := "high" }]
     else [])
  else []

/-- CodeAnalysisTool._check_performance_issues: add-assignment together
with the substring str (case-insensitive), only for the py extension. -/
def check_performance_issues (line : List Char) (lineNum : Int) (ext : List Char) :
    List Issue :=
  if ext == ('p' :: 'y' :: []) then
    (if containsSub line ("+=".data) && containsSub (toLowerL line) ("str".data) then
      [{ type := "performance", line := lineNum
         description := "Potential inefficient string concatenation"
         suggestion := "Consider using join() or f-strings for better performance"
         severity := "medium" }]
     else [])
  else []

/-- CodeAnalysisTool._check_best_practices: TODO marker and print call,
only for the py extension. -/
def check_best_practices (line : List Char) (lineNum : Int) (ext : List Char) :
    List Issue :=
  if ext == ('p' :: 'y' :: []) then
    (if containsSub (toUpperL line) ("TODO".data) then
      [{ type := "best_practice", line := lineNum
         description := "TODO comment found"
         suggestion := "Consider creating a ticket or implementing the TODO"
         severity := "low" }]
     else [])
    ++
    (if printSearch line then
      [{ type := "best_practice", line := lineNum
         description := "Print statement found"
         suggestion := "Consider using logging instead of print statements"
         severity := "low" }]
     else [])
  else []

/-- The body of the per-line loop of CodeAnalysisTool._run: the four rule
families in their fixed order. -/
def issuesForLine (line : List Char) (lineNum : Int) (ext : List Char) :
    List Issue :=
  check_style_issues line lineNum ext
  ++ check_potential_bugs line lineNum ext
  ++ check_performance_issues line lineNum ext
  ++ check_best_practices line lineNum ext

/-- The loop of CodeAnalysisTool._run over lines_to_analyze. A line number
passing the guard line_num <= len(lines) is used to index the line list
with Python semantics; an index outside Python's valid range raises
IndexError, which propagates out of the call. -/
def analyzeLoop (lines : List (List Char)) (ext : List Char) :
    List Int → Except String (List Issue)
  | [] => .ok []
  | n :: rest =>
    if n ≤ (lines.length : Int) then
      match pyIndex lines (n - 1) with
      | some line =>
        match analyzeLoop lines ext rest with
        | .ok tail => .ok (issuesForLine line n ext ++ tail)
        | .error e => .error e
      | none => .error "IndexError: list index out of range"
    else analyzeLoop lines ext rest

/-- lines_to_analyze = changed_lines if changed_lines else range(1, len+1):
None and the empty list are both falsy, triggering the full-file range. -/
def linesToAnalyzeOf (lines : List (List Char)) (changedLines : Option (List Int)) :
    List Int :=
  match changedLines with
  | some l => if l.isEmpty then (List.range' 1 lines.length).map Int.ofNat else l
  | none => (List.range' 1 lines.length).map Int.ofNat

/-- The dictionary returned by CodeAnalysisTool._run. -/
structure RunResult where
  fileName : List Char
  issues : List Issue
  totalLines : Nat
  analyzedLines : Nat
deriving DecidableEq

namespace CodeAnalysisTool

/-- CodeAnalysisTool._run (app/agents/tools.py): split the content into
lines, take the lowercased last dot-component of the file name as the
extension, analyze the selected line numbers, and return the result
dictionary. An IndexError raised while indexing a line propagates. -/
def run (fileContent fileName : List Char) (changedLines : Option (List Int)) :
    Except String RunResult :=
  let lines := pySplitLines fileContent
  let ext := toLowerL ((pySplitOn '.' fileName).getLastD [])
  let linesToAnalyze := linesToAnalyzeOf lines changedLines
  match analyzeLoop lines ext linesToAnalyze with
  | .ok issues =>
    .ok { fileName := fileName, issues := issues
          totalLines := lines.length, analyzedLines := linesToAnalyze.length }
  | .error e => .error e

end CodeAnalysisTool

/-- Maximal leading digit run of a character list and the remainder. -/
def takeDigits : List Char → List Char × List Char
  | [] => ([], [])
  | c :: rest =>
    if c.isDigit then
      let (d, r) := takeDigits rest
      (c :: d, r)
    else ([], c :: rest)

/-- Python int() on a decimal digit string. -/
def natOfDigits (ds : List Char) : Nat :=
  ds.foldl (fun acc c => acc * 10 + (c.toNat - 48)) 0

/-- re.search of the pattern b/(.+)$ used on a diff --git header line:
the leftmost occurrence of b/ that is followed by at least one character,
capturing everything after it up to the end of the line. -/
def searchBSlash : List Char → Option (List Char)
  | 'b' :: '/' :: c :: rest => some (c :: rest)
  | _ :: rest => searchBSlash rest
  | [] => none

/-- re.search of the pattern plus(digits),?(digits)? used on a hunk header
line: the leftmost plus sign followed by at least one digit; the first
group is the maximal digit run, then an optional comma, then an optional
second digit run (none when absent). -/
def searchPlusNums : List Char → Option (Nat × Option Nat)
  | [] => none
  | '+' :: rest =>
    match rest with
    | c :: _ =>
      if c.isDigit then
        let (d1, r1) := takeDigits rest
        let r2 := match r1 with
          | ',' :: t => t
          | _ => r1
        let (d2, _) := takeDigits r2
        some (natOfDigits d1, if d2.isEmpty then none else some (natOfDigits d2))
      else searchPlusNums rest
    | [] => none
  | _ :: rest => searchPlusNums rest

/-- The changed-lines dictionary: an association list in insertion order,
mirroring a Python dict built by assignment and append. -/
def ChangedLines := List (List Char × List Nat)

/-- Python dict assignment d[k] = v: overwrite in place when the key is
present (keeping its position), otherwise append at the end. -/
def dictSet (m : List (List Char × List Nat)) (k : List Char) (v : List Nat) :
    List (List Char × List Nat) :=
  if (m.lookup k).isSome then
    m.map (fun p => if p.1 == k then (k, v) else p)
  else m ++ [(k, v)]

/-- Python d[k].append over a whole range: extend the list stored at an
existing key. -/
def dictAppend (m : List (List Char × List Nat)) (k : List Char) (v : List Nat) :
    List (List Char × List Nat) :=
  m.map (fun p => if p.1 == k then (p.1, p.2 ++ v) else p)

/-- One iteration of the loop of parse_diff_for_changed_lines
(app/services/github_service.py): a diff --git line moves the current-file
cursor and creates an empty entry; a line starting with two at-signs, when
a current file is set (Python truthiness: a non-empty string), appends the
whole new-side range of the hunk header, the count defaulting to 1 when
absent; every other line is ignored. -/
def parseDiffStep (st : Option (List Char) × List (List Char × List Nat))
    (line : List Char) : Option (List Char) × List (List Char × List Nat) :=
  if startsWithL line ("diff --git".data) then
    match searchBSlash line with
    | some f => (some f, dictSet st.2 f [])
    | none => st
  else
    match st.1 with
    | some f =>
      if startsWithL line ("@@".data) && !f.isEmpty then
        match searchPlusNums line with
        | some (s, oc) => (some f, dictAppend st.2 f (List.range' s (oc.getD 1)))
        | none => st
      else st
    | none => st

/-- parse_diff_for_changed_lines on an already-split line list. -/
def parseDiffLines (ls : List (List Char)) : List (List Char × List Nat) :=
  (ls.foldl parseDiffStep (none, [])).2

/-- GitHubService.parse_diff_for_changed_lines
(app/services/github_service.py): split the diff text on newlines and fold
the header-driven step over it. -/
def parse_diff_for_changed_lines (diffContent : List Char) :
    List (List Char × List Nat) :=
  parseDiffLines (pySplitLines diffContent)

/-- The extension set of CodeReviewAgent._should_skip_file. -/
def skipExtensions : List (List Char) :=
  [".png".data, ".jpg".data, ".jpeg".data, ".gif".data, ".svg".data, ".ico".data,
   ".pdf".data, ".doc".data, ".docx".data, ".xls".data, ".xlsx".data,
   ".zip".data, ".tar".data, ".gz".data, ".rar".data,
   ".mp4".data, ".avi".data, ".mov".data, ".mp3".data, ".wav".data,
   ".lock".data, ".log".data]

/-- The directory-pattern set of CodeReviewAgent._should_skip_file. -/
def skipPatterns : List (List Char) :=
  ["node_modules/".data, "venv/".data, "__pycache__/".data, ".git/".data,
   "dist/".data, "build/".data, "target/".data, ".idea/".data, ".vscode/".data]

/-- CodeReviewAgent._should_skip_file (app/agents/code_review_agent.py):
the lowercased name ends with one of the skip extensions, or the name
contains one of the skip patterns as a substring. Membership in a Python
set is order-independent, so the set iterations embed as any. -/
def should_skip_file (fileName : List Char) : Bool :=
  skipExtensions.any (fun e => endsWithL (toLowerL fileName) e)
  || skipPatterns.any (fun p => containsSub fileName p)

/-- One entry of the changed-file list returned by get_pr_files. -/
structure FileInfo where
  filename : List Char
  status : List Char
deriving DecidableEq

/-- The parts of the dictionary returned by GitHubPRTool._fetch_pr_data
that CodeReviewAgent.analyze_pr reads: the file list, the changed-lines
map parsed from the diff, and the fetched file contents (a file whose
content fetch failed is simply absent from the content map, as in
_fetch_pr_data). -/
structure PRData where
  files : List FileInfo
  changedLines : List (List Char × List Nat)
  filesContent : List (List Char × List Char)
deriving DecidableEq

/-- The paths for which GitHubPRTool._fetch_pr_data calls get_file_content
(app/agents/tools.py, the loop over pr_files): every file whose status is
not removed, with no other condition. -/
def fetchContentPaths (files : List FileInfo) : List (List Char) :=
  (files.filter (fun f => f.status != "removed".data)).map (fun f => f.filename)

/-- One FileAnalysis model (app/models.py): a file name and its issues. -/
structure FileAnalysis where
  name : List Char
  issues : List Issue
deriving DecidableEq

/-- The AnalysisSummary model (app/models.py). -/
structure AnalysisSummary where
  total_files : Nat
  total_issues : Nat
  critical_issues : Nat
  high_issues : Nat
  medium_issues : Nat
  low_issues : Nat
deriving DecidableEq

/-- The AnalysisResults model (app/models.py). -/
structure AnalysisResults where
  files : List FileAnalysis
  summary : AnalysisSummary
deriving DecidableEq

/-- The summary block of CodeReviewAgent.analyze_pr: total_files is the
number of collected file analyses, total_issues the sum of their issue
counts, and each severity count a filtered count over all issues of all
collected files. -/
def mkSummary (fas : List FileAnalysis) : AnalysisSummary :=
  let allIssues := (fas.map (fun fa => fa.issues)).flatten
  { total_files := fas.length
    total_issues := (fas.map (fun fa => fa.issues.length)).sum
    critical_issues := allIssues.countP (fun i => i.severity == "critical")
    high_issues := allIssues.countP (fun i => i.severity == "high")
    medium_issues := allIssues.countP (fun i => i.severity == "medium")
    low_issues := allIssues.countP (fun i => i.severity == "low") }

/-- The per-file loop of CodeReviewAgent.analyze_pr
(app/agents/code_review_agent.py): skip removed files, skip files rejected
by _should_skip_file, skip files whose content (defaulting to the empty
string when absent from files_content) is empty, and otherwise run the
analysis tool on the changed lines of the file (defaulting to the empty
list when the file is absent from changed_lines), collecting a
FileAnalysis only when the tool reports at least one issue. An exception
from the tool propagates. -/
def analyzePrLoop (cm : List (List Char × List Nat))
    (km : List (List Char × List Char)) :
    List FileInfo → Except String (List FileAnalysis)
  | [] => .ok []
  | f :: rest =>
    if f.status == "removed".data then analyzePrLoop cm km rest
    else if should_skip_file f.filename then analyzePrLoop cm km rest
    else
      let content := (km.lookup f.filename).getD []
      if content.isEmpty then analyzePrLoop cm km rest
      else
        let changed := (cm.lookup f.filename).getD []
        match CodeAnalysisTool.run content f.filename
            (some (changed.map Int.ofNat)) with
        | .ok r =>
          match analyzePrLoop cm km rest with
          | .ok tail => .ok (if !r.issues.isEmpty then ⟨f.filename, r.issues⟩ :: tail else tail)
          | .error e => .error e
        | .error e => .error e

/-- CodeReviewAgent.analyze_pr, from the point where the fetched PR data
is in hand: run the per-file loop and build the summary from the collected
file analyses. -/
def analyze_pr (d : PRData) : Except String AnalysisResults :=
  match analyzePrLoop d.changedLines d.filesContent d.files with
  | .ok fas => .ok { files := fas, summary := mkSummary fas }
  | .error e => .error e

/-- The job record of app/database.py, restricted to the fields the
submission endpoint and the worker read or write. -/
structure TaskRecord where
  repoUrl : String
  prNumber : Int
  status : String
  results : Option String
  errorMessage : Option String
deriving DecidableEq

/-- The AnalyzePRRequest model (app/models.py): repo_url is a pydantic
HttpUrl, pr_number a plain int with no positivity or sign constraint, and
github_token optional. A value of this structure stands for a request
that passed pydantic validation; any integer pr_number does. -/
structure AnalyzePRRequest where
  repoUrl : String
  prNumber : Int
  githubToken : Option String
deriving DecidableEq

/-- The record-creating effect of the analyze_pr endpoint (app/main.py):
for every validated request it unconditionally creates a task record in
status pending carrying the request's repo_url and pr_number, with no
check on the sign of pr_number. -/
def analyzePrEndpoint (req : AnalyzePRRequest) : TaskRecord :=
  { repoUrl := req.repoUrl, prNumber := req.prNumber
    status := "pending", results := none, errorMessage := none }

/-- analyze_pr_task (app/tasks.py), as a function of the looked-up task
record and of the outcome of running the pipeline and serializing its
result (ok carries the serialized JSON string, error the message of the
exception raised by a mandatory fetch, the pipeline, or serialization).
The record, when found, is first moved to processing; on success it is
moved to completed with the results stored; on failure it is moved to
failed with the error message stored and the results field untouched. -/
def analyze_pr_task (record : Option TaskRecord)
    (outcome : Except String String) : Option TaskRecord :=
  match record with
  | none => none
  | some rec =>
    let rec1 := { rec with status := "processing" }
    match outcome with
    | .ok resultsJson =>
      some { rec1 with status := "completed", results := some resultsJson }
    | .error e =>
      some { rec1 with status := "failed", errorMessage := some e }

/-- The Scenario A diff of the specification. -/
def scenarioADiff : String :=
  "diff --git a/test.py b/test.py\n@@ -1,3 +1,4 @@\n def hello():\n+    print(\"Hello\")\n     return \"world\""

/-- A pipeline input whose only file is absent from the changed-lines map
while its fetched content is a one-line python file with a print call. -/
def c2PRData : PRData :=
  { files := [⟨"a.py".data, "modified".data⟩]
    changedLines := []
    filesContent := [("a.py".data, "print(x)".data)] }

/-- The severities the line analyzer can emit. -/
def severity3 (i : Issue) : Prop :=
  i.severity = "low" ∨ i.severity = "medium" ∨ i.severity = "high"

/-- The header test of parse_diff_for_changed_lines: the only two line
shapes the parser reacts to. -/
def isHeaderLine (l : List Char) : Bool :=
  startsWithL l ("diff --git".data) || startsWithL l ("@@".data)

lemma parseDiffStep_id (st : Option (List Char) × List (List Char × List Nat))
    (line : List Char) (h : isHeaderLine line = false) :
    parseDiffStep st line = st := by
  have h1 : startsWithL line ("diff --git".data) = false := by
    cases hx : startsWithL line ("diff --git".data)
    · rfl
    · simp [isHeaderLine, hx] at h
  have h2 : startsWithL line ("@@".data) = false := by
    cases hx : startsWithL line ("@@".data)
    · rfl
    · simp [isHeaderLine, hx] at h
  unfold parseDiffStep
  rw [h1]
  simp only [Bool.false_eq_true, if_false]
  cases st.1 with
  | none => rfl
  | some f => simp [h2]

lemma foldl_filter_eq {α β : Type} (p : β → Bool) (step : α → β → α)
    (h : ∀ s b, p b = false → step s b = s) :
    ∀ (l : List β) (init : α), (l.filter p).foldl step init = l.foldl step init := by
  intro l
  induction l with
  | nil => intro init; rfl
  | cons b t ih =>
    intro init
    rw [List.filter_cons]
    cases hpb : p b
    · simp only [Bool.false_eq_true, if_false, List.foldl_cons]
      rw [h init b hpb]
      exact ih init
    · simp only [if_true, List.foldl_cons]
      exact ih (step init b)

lemma pySplitOn_ne_nil (sep : Char) (s : List Char) : pySplitOn sep s ≠ [] := by
  cases s with
  | nil => simp [pySplitOn]
  | cons c rest =>
    unfold pySplitOn
    by_cases h : c == sep
    · simp [h]
    · simp only [h, Bool.false_eq_true, if_false]
      cases hr : pySplitOn sep rest <;> simp

/-- Claim C1, counterexample: on the Scenario A diff, the parse maps
test.py to the whole hunk range 1..4, not to the single added line 2. -/
theorem scenarioA_not_single_line :
    List.lookup ("test.py".data) (parse_diff_for_changed_lines scenarioADiff.data)
      = some [1, 2, 3, 4] ∧
    List.lookup ("test.py".data) (parse_diff_for_changed_lines scenarioADiff.data)
      ≠ some [2] := by
  have h : List.lookup ("test.py".data) (parse_diff_for_changed_lines scenarioADiff.data)
      = some [1, 2, 3, 4] := rfl
  refine ⟨h, ?_⟩
  rw [h]
  decide

/-- Claim C1, amended: parse_diff_for_changed_lines never inspects hunk
content lines; only diff --git lines and hunk header lines affect the
result, and the Scenario A diff maps test.py to the full new-side range
[1, 2, 3, 4] taken from the hunk header. -/
theorem parse_diff_hunk_ranges :
    parse_diff_for_changed_lines scenarioADiff.data
      = [("test.py".data, [1, 2, 3, 4])] ∧
    ∀ ls : List (List Char),
      parseDiffLines (ls.filter isHeaderLine) = parseDiffLines ls := by
  constructor
  · rfl
  · intro ls
    unfold parseDiffLines
    rw [foldl_filter_eq isHeaderLine parseDiffStep parseDiffStep_id ls (none, [])]

/-- Claim C2, counterexample: a file absent from the changed-lines map is
not skipped; its whole content is analyzed and it produces a file report
with an issue. -/
theorem absent_entry_analyzes_file :
    List.lookup ("a.py".data) c2PRData.changedLines = none ∧
    analyze_pr c2PRData = .ok
      { files := [⟨"a.py".data,
          [⟨"best_practice", 1, "Print statement found",
            "Consider using logging instead of print statements", "low"⟩]⟩]
        summary := ⟨1, 1, 0, 0, 0, 1⟩ } :=
  ⟨rfl, rfl⟩

/-- Claim C2, amended: a file absent from the changed-lines map gets the
default empty list, which is falsy, so the analyzer takes its full-file
fallback: analyzing with the empty changed-line list is the same as
analyzing every line of the file. -/
theorem empty_changed_lines_full_file :
    ∀ (content fileName : List Char),
      CodeAnalysisTool.run content fileName (some []) =
      CodeAnalysisTool.run content fileName
        (some ((List.range' 1 (pySplitLines content).length).map Int.ofNat)) := by
  intro c nm
  have hne : pySplitLines c ≠ [] := pySplitOn_ne_nil '\n' c
  have hlen : 0 < (pySplitLines c).length := List.length_pos.mpr hne
  have h : linesToAnalyzeOf (pySplitLines c) (some []) =
      linesToAnalyzeOf (pySplitLines c)
        (some ((List.range' 1 (pySplitLines c).length).map Int.ofNat)) := by
    unfold linesToAnalyzeOf
    have hre : ((List.range' 1 (pySplitLines c).length).map Int.ofNat).isEmpty = false := by
      obtain ⟨k, hk⟩ : ∃ k, (pySplitLines c).length = k + 1 :=
        ⟨(pySplitLines c).length - 1, (Nat.succ_pred_eq_of_pos hlen).symm⟩
      rw [hk]
      rfl
    simp [hre]
  simp only [CodeAnalysisTool.run]
  rw [h]

/-- Claim C3, counterexample: the entry 0 of lines_to_check is below 1 but
is not ignored; it passes the only guard, indexes the last line of the
file through Python negative indexing, and contributes an issue whose
line number is 0. -/
theorem below_one_line_number_reports_issue :
    CodeAnalysisTool.run ("print(x)".data) ("a.py".data) (some [0]) =
      .ok ⟨"a.py".data,
        [⟨"best_practice", 0, "Print statement found",
          "Consider using logging instead of print statements", "low"⟩], 1, 1⟩ :=
  rfl

/-- Claim C3, amended: the analyzer validates each entry only against the
upper bound: the analysis loop is unchanged by discarding the entries
above the line count (they are silently ignored, never index, and
contribute nothing), while entries at 0 or below pass the guard and reach
the indexing step. -/
theorem only_upper_bound_validated :
    ∀ (lines : List (List Char)) (ext : List Char) (l : List Int),
      analyzeLoop lines ext (l.filter (fun n => n ≤ (lines.length : Int))) =
      analyzeLoop lines ext l := by
  intro lines ext l
  induction l with
  | nil => rfl
  | cons n rest ih =>
    by_cases h : n ≤ (lines.length : Int)
    · simp only [List.filter_cons, h, decide_eq_true_eq, if_true]
      simp only [analyzeLoop]
      rw [if_pos h, if_pos h]
      cases hidx : pyIndex lines (n - 1) with
      | some line => rw [ih]
      | none => rfl
    · simp only [List.filter_cons, h, decide_eq_true_eq, if_false]
      simp only [analyzeLoop]
      rw [if_neg h]
      exact ih

/-- Claim C4: when the pipeline run (any mandatory fetch, the analysis, or
result serialization) raises an exception with message e, the job record
ends in status failed, carries that non-empty message, and stores no
result. -/
theorem pipeline_failure_marks_failed (rec : TaskRecord) (e : String)
    (hres : rec.results = none) (he : e ≠ "") :
    analyze_pr_task (some rec) (.error e) =
      some ⟨rec.repoUrl, rec.prNumber, "failed", none, some e⟩ ∧
    (some e ≠ (some "" : Option String)) := by
  constructor
  · cases rec
    simp only [analyze_pr_task]
    simp_all
  · simp [he]

/-- Witness for claim C4 at a concrete pending record and a concrete
transport-error message. -/
theorem pipeline_failure_marks_failed_witness :
    analyze_pr_task (some ⟨"https://github.com/a/b", 1, "pending", none, none⟩)
        (.error "connection reset") =
      some ⟨"https://github.com/a/b", 1, "failed", none, some "connection reset"⟩ ∧
    (some "connection reset" ≠ (some "" : Option String)) :=
  pipeline_failure_marks_failed
    ⟨"https://github.com/a/b", 1, "pending", none, none⟩
    "connection reset" rfl (by decide)

/-- Claim C6, counterexample: a submission with PR number -1 is not
rejected; the endpoint creates a pending job record carrying that
non-positive PR number. -/
theorem nonpositive_pr_number_creates_job :
    (analyzePrEndpoint ⟨"https://github.com/owner/repo", -1, none⟩).status = "pending" ∧
    (analyzePrEndpoint ⟨"https://github.com/owner/repo", -1, none⟩).prNumber = -1 ∧
    ((-1 : Int) ≤ 0) :=
  ⟨rfl, rfl, by decide⟩

/-- Claim C6, amended: a malformed repository URL is rejected by the
request model before the handler runs, but the PR number is a plain
integer field with no sign constraint: for every validated request,
including every non-positive PR number, a pending job record with that
PR number is created. -/
theorem submission_always_creates_pending (req : AnalyzePRRequest)
    (h : req.prNumber ≤ 0) :
    (analyzePrEndpoint req).status = "pending" ∧
    (analyzePrEndpoint req).prNumber = req.prNumber ∧
    (analyzePrEndpoint req).results = none :=
  ⟨rfl, rfl, rfl⟩

/-- Witness for claim C6 at PR number 0. -/
theorem submission_always_creates_pending_witness :
    (analyzePrEndpoint ⟨"https://github.com/owner/repo", 0, none⟩).status = "pending" ∧
    (analyzePrEndpoint ⟨"https://github.com/owner/repo", 0, none⟩).prNumber = 0 ∧
    (analyzePrEndpoint ⟨"https://github.com/owner/repo", 0, none⟩).results = none :=
  submission_always_creates_pending ⟨"https://github.com/owner/repo", 0, none⟩ (by decide)

/-- Claim C7: on the Scenario B content with lines 1 and 2 of a python
file, the analyzer returns exactly one issue, of type bug, at line 1,
with severity medium. -/
theorem scenario_b_single_bug_issue :
    CodeAnalysisTool.run ("if x == None:\n    return x".data) ("a.py".data)
        (some [1, 2]) =
      .ok ⟨"a.py".data,
        [⟨"bug", 1, "Use 'is None' instead of '== None'",
          "Replace '== None' with 'is None'", "medium"⟩], 2, 2⟩ :=
  rfl

/-- Claim C9: the line analyzer is a pure function of its three arguments
(the source builds a fresh issue list and mutates nothing), so two calls
with identical arguments return identical results. -/
theorem analyze_deterministic (c₁ n₁ : List Char) (l₁ : Option (List Int))
    (c₂ n₂ : List Char) (l₂ : Option (List Int))
    (hc : c₁ = c₂) (hn : n₁ = n₂) (hl : l₁ = l₂) :
    CodeAnalysisTool.run c₁ n₁ l₁ = CodeAnalysisTool.run c₂ n₂ l₂ := by
  subst hc hn hl
  rfl

/-- Witness for claim C9 at the Scenario B arguments. -/
theorem analyze_deterministic_witness :
    CodeAnalysisTool.run ("if x == None:\n    return x".data) ("a.py".data)
        (some [1, 2]) =
      CodeAnalysisTool.run ("if x == None:\n    return x".data) ("a.py".data)
        (some [1, 2]) :=
  analyze_deterministic _ _ _ _ _ _ rfl rfl rfl

lemma sev_of_ite {c : Prop} [Decidable c] {i a : Issue}
    (h : i ∈ (if c then [a] else [])) : i = a := by
  by_cases hc : c
  · rw [if_pos hc] at h; simpa using h
  · rw [if_neg hc] at h; simp at h

lemma sev_style (line : List Char) (n : Int) (ext : List Char) :
    ∀ i ∈ check_style_issues line n ext, severity3 i := by
  intro i h
  unfold check_style_issues at h
  rcases List.mem_append.mp h with h1 | h1
  · rcases List.mem_append.mp h1 with h2 | h2
    · rw [sev_of_ite h2]; exact Or.inl rfl
    · rw [sev_of_ite h2]; exact Or.inl rfl
  · by_cases he : (ext == ('p' :: 'y' :: [])) = true
    · rw [if_pos he] at h1
      rw [sev_of_ite h1]; exact Or.inl rfl
    · rw [if_neg he] at h1; simp at h1

lemma sev_bugs (line : List Char) (n : Int) (ext : List Char) :
    ∀ i ∈ check_potential_bugs line n ext, severity3 i := by
  intro i h
  unfold check_potential_bugs at h
  by_cases he : (ext == ('p' :: 'y' :: [])) = true
  · rw [if_pos he] at h
    rcases List.mem_append.mp h with h1 | h1
    · rw [sev_of_ite h1]; exact Or.inr (Or.inl rfl)
    · rw [sev_of_ite h1]; exact Or.inr (Or.inr rfl)
  · rw [if_neg he] at h; simp at h

lemma sev_perf (line : List Char) (n : Int) (ext : List Char) :
    ∀ i ∈ check_performance_issues line n ext, severity3 i := by
  intro i h
  unfold check_performance_issues at h
  by_cases he : (ext == ('p' :: 'y' :: [])) = true
  · rw [if_pos he] at h
    rw [sev_of_ite h]; exact Or.inr (Or.inl rfl)
  · rw [if_neg he] at h; simp at h

lemma sev_best (line : List Char) (n : Int) (ext : List Char) :
    ∀ i ∈ check_best_practices line n ext, severity3 i := by
  intro i h
  unfold check_best_practices at h
  by_cases he : (ext == ('p' :: 'y' :: [])) = true
  · rw [if_pos he] at h
    rcases List.mem_append.mp h with h1 | h1
    · rw [sev_of_ite h1]; exact Or.inl rfl
    · rw [sev_of_ite h1]; exact Or.inl rfl
  · rw [if_neg he] at h; simp at h

lemma sev_issuesForLine (line : List Char) (n : Int) (ext : List Char) :
    ∀ i ∈ issuesForLine line n ext, severity3 i := by
  intro i h
  unfold issuesForLine at h
  rcases List.mem_append.mp h with h1 | h1
  · rcases List.mem_append.mp h1 with h2 | h2
    · rcases List.mem_append.mp h2 with h3 | h3
      · exact sev_style line n ext i h3
      · exact sev_bugs line n ext i h3
    · exact sev_perf line n ext i h2
  · exact sev_best line n ext i h1

lemma sev_analyzeLoop (lines : List (List Char)) (ext : List Char) :
    ∀ (l : List Int) (is : List Issue),
      analyzeLoop lines ext l = .ok is → ∀ i ∈ is, severity3 i := by
  intro l
  induction l with
  | nil =>
    intro is h i hi
    injection h with h2
    subst h2
    simp at hi
  | cons n rest ih =>
    intro is h i hi
    simp only [analyzeLoop] at h
    by_cases hn : n ≤ (lines.length : Int)
    · rw [if_pos hn] at h
      cases hidx : pyIndex lines (n - 1) with
      | some line =>
        rw [hidx] at h
        cases hrec : analyzeLoop lines ext rest with
        | ok tail =>
          rw [hrec] at h
          injection h with h2
          subst h2
          rcases List.mem_append.mp hi with h1 | h1
          · exact sev_issuesForLine line n ext i h1
          · exact ih tail hrec i h1
        | error e => rw [hrec] at h; exact Except.noConfusion h
      | none => rw [hidx] at h; exact Except.noConfusion h
    · rw [if_neg hn] at h
      exact ih is h i hi

lemma sev_run (c nm : List Char) (cl : Option (List Int)) (res : RunResult)
    (h : CodeAnalysisTool.run c nm cl = .ok res) :
    ∀ i ∈ res.issues, severity3 i := by
  simp only [CodeAnalysisTool.run] at h
  cases hl : analyzeLoop (pySplitLines c) (toLowerL ((pySplitOn '.' nm).getLastD []))
      (linesToAnalyzeOf (pySplitLines c) cl) with
  | ok issues =>
    rw [hl] at h
    injection h with h2
    subst h2
    exact sev_analyzeLoop _ _ _ issues hl
  | error e => rw [hl] at h; exact Except.noConfusion h

/-- The invariant of the per-file loop of analyze_pr: every collected file
analysis has only analyzer-produced severities, passes the skip filter,
and had non-empty content in the content map. -/
lemma analyzePrLoop_inv (cm : List (List Char × List Nat))
    (km : List (List Char × List Char)) :
    ∀ (files : List FileInfo) (fas : List FileAnalysis),
      analyzePrLoop cm km files = .ok fas → ∀ fa ∈ fas,
        (∀ i ∈ fa.issues, severity3 i) ∧
        should_skip_file fa.name = false ∧
        ((km.lookup fa.name).getD []).isEmpty = false := by
  intro files
  induction files with
  | nil =>
    intro fas h fa hfa
    injection h with h2
    subst h2
    simp at hfa
  | cons f rest ih =>
    intro fas h fa hfa
    simp only [analyzePrLoop] at h
    by_cases h1 : (f.status == "removed".data) = true
    · rw [if_pos h1] at h; exact ih fas h fa hfa
    · rw [if_neg h1] at h
      by_cases h2 : should_skip_file f.filename = true
      · rw [if_pos h2] at h; exact ih fas h fa hfa
      · rw [if_neg h2] at h
        by_cases h3 : ((km.lookup f.filename).getD []).isEmpty = true
        · rw [if_pos h3] at h; exact ih fas h fa hfa
        · rw [if_neg h3] at h
          cases hr : CodeAnalysisTool.run ((km.lookup f.filename).getD [])
              f.filename (some (((cm.lookup f.filename).getD []).map Int.ofNat)) with
          | ok r =>
            rw [hr] at h
            cases hrec : analyzePrLoop cm km rest with
            | ok tail =>
              rw [hrec] at h
              injection h with h4
              subst h4
              by_cases h5 : (!r.issues.isEmpty) = true
              · rw [if_pos h5] at hfa
                rcases List.mem_cons.mp hfa with h6 | h6
                · subst h6
                  refine ⟨fun i hi => sev_run _ _ _ _ hr i hi, ?_, ?_⟩
                  · exact Bool.not_eq_true _ ▸ h2
                  · exact Bool.not_eq_true _ ▸ h3
                · exact ih tail hrec fa h6
              · rw [if_neg h5] at hfa
                exact ih tail hrec fa hfa
            | error e => rw [hrec] at h; exact Except.noConfusion h
          | error e => rw [hr] at h; exact Except.noConfusion h

lemma analyze_pr_ok (d : PRData) (r : AnalysisResults)
    (h : analyze_pr d = .ok r) :
    ∃ fas, analyzePrLoop d.changedLines d.filesContent d.files = .ok fas ∧
      r = ⟨fas, mkSummary fas⟩ := by
  unfold analyze_pr at h
  cases hl : analyzePrLoop d.changedLines d.filesContent d.files with
  | ok fas =>
    rw [hl] at h
    injection h with h2
    exact ⟨fas, rfl, h2.symm⟩
  | error e => rw [hl] at h; exact Except.noConfusion h

lemma count_partition : ∀ (L : List Issue), (∀ i ∈ L, severity3 i) →
    L.countP (fun i => i.severity == "critical")
      + L.countP (fun i => i.severity == "high")
      + L.countP (fun i => i.severity == "medium")
      + L.countP (fun i => i.severity == "low") = L.length := by
  intro L
  induction L with
  | nil => intro _; rfl
  | cons a t ih =>
    intro h
    have ha := h a (List.mem_cons_self a t)
    have ht := ih (fun i hi => h i (List.mem_cons_of_mem a hi))
    simp only [List.countP_cons, List.length_cons]
    rcases ha with hs | hs | hs <;> rw [hs] <;> simp <;> omega

/-- Claim C5: in every result the pipeline produces, total_files is the
number of file reports, total_issues the sum of their issue counts, and
the four severity counts partition total_issues. -/
theorem summary_invariant :
    ∀ (d : PRData) (r : AnalysisResults), analyze_pr d = .ok r →
      r.summary.total_files = r.files.length ∧
      r.summary.total_issues = (r.files.map (fun fa => fa.issues.length)).sum ∧
      r.summary.critical_issues + r.summary.high_issues + r.summary.medium_issues
        + r.summary.low_issues = r.summary.total_issues := by
  intro d r h
  obtain ⟨fas, hl, hr⟩ := analyze_pr_ok d r h
  subst hr
  refine ⟨rfl, rfl, ?_⟩
  simp only [mkSummary]
  have hmem : ∀ i ∈ (fas.map (fun fa => fa.issues)).flatten, severity3 i := by
    intro i hi
    rcases List.mem_flatten.mp hi with ⟨l, hl2, hil⟩
    rcases List.mem_map.mp hl2 with ⟨fa, hfa, rfl⟩
    exact (analyzePrLoop_inv _ _ _ _ hl fa hfa).1 i hil
  have hpart := count_partition _ hmem
  rw [hpart, List.length_flatten, List.map_map]
  rfl

/-- Witness for claim C5 at the empty pipeline input. -/
theorem summary_invariant_witness :
    (⟨[], mkSummary []⟩ : AnalysisResults).summary.total_files
      = (⟨[], mkSummary []⟩ : AnalysisResults).files.length ∧
    (⟨[], mkSummary []⟩ : AnalysisResults).summary.total_issues
      = ((⟨[], mkSummary []⟩ : AnalysisResults).files.map
          (fun fa => fa.issues.length)).sum ∧
    (⟨[], mkSummary []⟩ : AnalysisResults).summary.critical_issues
      + (⟨[], mkSummary []⟩ : AnalysisResults).summary.high_issues
      + (⟨[], mkSummary []⟩ : AnalysisResults).summary.medium_issues
      + (⟨[], mkSummary []⟩ : AnalysisResults).summary.low_issues
      = (⟨[], mkSummary []⟩ : AnalysisResults).summary.total_issues :=
  summary_invariant ⟨[], [], []⟩ ⟨[], mkSummary []⟩ rfl

/-- Claim C8, counterexample: content is fetched for image.png even though
the skip filter rejects it, because _fetch_pr_data fetches every
non-removed file before the filter is ever consulted. -/
theorem content_fetched_for_skipped_file :
    should_skip_file ("image.png".data) = true ∧
    ("image.png".data) ∈ fetchContentPaths [⟨"image.png".data, "modified".data⟩] := by
  constructor
  · rfl
  · have h : fetchContentPaths [⟨"image.png".data, "modified".data⟩]
        = ["image.png".data] := rfl
    rw [h]
    exact List.mem_singleton.mpr rfl

/-- Claim C8, amended: the skip filter is consulted only before analysis,
not before the content fetch: content is fetched for every non-removed
file, and no file rejected by the filter ever appears in the pipeline
result. -/
theorem filter_checked_before_analysis :
    ∀ (d : PRData) (r : AnalysisResults), analyze_pr d = .ok r →
      r.files.all (fun fa => !should_skip_file fa.name) = true := by
  intro d r h
  obtain ⟨fas, hl, hr⟩ := analyze_pr_ok d r h
  subst hr
  rw [List.all_eq_true]
  intro fa hfa
  have h2 := (analyzePrLoop_inv _ _ _ _ hl fa hfa).2.1
  simp [h2]

/-- Witness for claim C8 at the empty pipeline input. -/
theorem filter_checked_before_analysis_witness :
    (⟨[], mkSummary []⟩ : AnalysisResults).files.all
      (fun fa => !should_skip_file fa.name) = true :=
  filter_checked_before_analysis ⟨[], [], []⟩ ⟨[], mkSummary []⟩ rfl

/-- Claim C10: a changed file whose fetched content is the empty string,
including every file whose content fetch failed (absent from the content
map, defaulting to the empty string), is skipped before analysis and
contributes no file report. -/
theorem empty_content_no_file_report :
    ∀ (d : PRData) (r : AnalysisResults) (name : List Char),
      analyze_pr d = .ok r →
      (List.lookup name d.filesContent = none ∨
       List.lookup name d.filesContent = some []) →
      r.files.all (fun fa => fa.name != name) = true := by
  intro d r name h hlook
  obtain ⟨fas, hl, hr⟩ := analyze_pr_ok d r h
  subst hr
  rw [List.all_eq_true]
  intro fa hfa
  have h3 := (analyzePrLoop_inv _ _ _ _ hl fa hfa).2.2
  have hne : fa.name ≠ name := by
    intro heq
    rw [heq] at h3
    rcases hlook with hh | hh <;> rw [hh] at h3 <;> simp at h3
  show (fa.name != name) = true
  exact bne_iff_ne.mpr hne

/-- Witness for claim C10: a modified file with empty fetched content
yields a result with no file report for it. -/
theorem empty_content_no_file_report_witness :
    (⟨[], mkSummary []⟩ : AnalysisResults).files.all
      (fun fa => fa.name != ("a.py".data)) = true :=
  empty_content_no_file_report
    ⟨[⟨"a.py".data, "modified".data⟩], [], [("a.py".data, [])]⟩
    ⟨[], mkSummary []⟩ ("a.py".data) rfl (Or.inr rfl)
